import Mathlib

/-
Shallow embedding of the core of the Tock kernel (repository aimwts/tock):
the process record and its operations (src/kernel/src/process.rs), the
syscall-dispatch fragments of the scheduler (src/kernel/src/sched.rs), and
the Cortex-M architecture shim (src/arch/cortex-m/src/syscall.rs).

Modelling conventions:
- Machine pointers and words (usize / *const u8) are modelled as Nat byte
  addresses; `isize` values as Int.  The word size is 4 bytes, so a frame
  slot `i` of a stack pointer `sp` lives at byte address `sp + 4*i`
  (the Rust code offsets `*const usize` pointers by `i`).
- Word-aligned process stack memory is a function `Nat -> Nat` from the
  byte address of a word slot to the stored word; `write_volatile` becomes
  a pointwise function update.
- The global work counter of the kernel (`Kernel.work`, a `Cell<usize>` in
  src/kernel/src/sched.rs) is modelled as an Int field folded into the
  process state, since exactly one process is modelled at a time.
- Fallible operations return their `Result`/`Option` together with the
  updated state; panicking paths (kernel halt) are modelled as `none`.
-/

namespace Tock

/-- Syscall numbers, from src/kernel/src/syscall.rs. -/
inductive Syscall
  | YIELD
  | SUBSCRIBE
  | COMMAND
  | ALLOW
  | MEMOP
deriving DecidableEq

/-- Why the process stopped executing, from src/kernel/src/syscall.rs. -/
inductive ContextSwitchReason
  | Other
  | SyscallFired
  | Fault
deriving DecidableEq

/-- Process scheduling state, from src/kernel/src/process.rs. -/
inductive State
  | Running
  | Yielded
  | Fault
deriving DecidableEq

/-- Fault policy, from src/kernel/src/process.rs. -/
inductive FaultResponse
  | Panic
  | Restart
deriving DecidableEq

/-- IPC task kind, from src/kernel/src/process.rs. -/
inductive IPCType
  | Service
  | Client
deriving DecidableEq

/-- A queued userspace function call, from src/kernel/src/process.rs.
The five usize fields are modelled as Nat. -/
structure FunctionCall where
  r0 : Nat
  r1 : Nat
  r2 : Nat
  r3 : Nat
  pc : Nat
deriving DecidableEq

/-- A queued unit of work, from src/kernel/src/process.rs.  The AppId held
by an IPC task is modelled by its process-array index. -/
inductive Task
  | FunctionCall (fc : FunctionCall)
  | IPC (peer : Nat) (kind : IPCType)
deriving DecidableEq

/-- Process-operation errors, from src/kernel/src/process.rs. -/
inductive Error
  | NoSuchApp
  | OutOfMemory
  | AddressOutOfBounds
deriving DecidableEq

/-- Userspace-visible return codes (the returncode.rs file of the repository is not
among the provided sources; the codes are kept symbolic, which is all the
kernel core inspects). -/
inductive ReturnCode
  | SUCCESS
  | FAIL
  | EBUSY
  | EINVAL
  | ESIZE
  | ENOMEM
  | ENOSUPPORT
  | ENODEVICE
deriving DecidableEq

/-- Conversion of process errors to return codes, from the
`impl From<Error> for ReturnCode` in src/kernel/src/process.rs. -/
def Error.toReturnCode : Error → ReturnCode
  | Error.OutOfMemory => ReturnCode.ENOMEM
  | Error.AddressOutOfBounds => ReturnCode.EINVAL
  | Error.NoSuchApp => ReturnCode.EINVAL

/-- Modelled from the spec: the bounded task ring buffer.  The ring buffer
type lives in the `common` crate of the repository, which is not among the
provided sources; the spec describes the task queue as a bounded FIFO whose
length never exceeds its compile-time capacity and whose enqueue increments
nothing itself but returns failure on overflow.  `rbEnqueue cap q t`
returns the new queue and whether the enqueue succeeded. -/
def rbEnqueue (cap : Nat) (q : List Task) (t : Task) : List Task × Bool :=
  if q.length < cap then (q ++ [t], true) else (q, false)

/-- Modelled from the spec: dequeue pops the FIFO head, returning the new
queue and the popped element if any. -/
def rbDequeue (q : List Task) : List Task × Option Task :=
  match q with
  | [] => ([], none)
  | t :: ts => (ts, some t)

/-- Pointwise update of a word store, the model of `write_volatile` on a
word slot of the process stack. -/
def writeWord (m : Nat → Nat) (a v : Nat) : Nat → Nat :=
  fun x => if x = a then v else m x

/-- The process record, from `struct Process` in src/kernel/src/process.rs,
restricted to the fields the kernel core reads and writes.  The global work counter
of the kernel is folded in (one process is modelled).  The
grant-pointer table, which in the source lives in the words just below
`mem_end`, is modelled as its own list field (entry value 0 is a null
pointer); its length is the boot-time grant counter. -/
structure Process where
  work : Int
  memStart : Nat
  memLen : Nat
  kernel_memory_break : Nat
  original_kernel_memory_break : Nat
  app_break : Nat
  original_app_break : Nat
  current_stack_pointer : Nat
  original_stack_pointer : Nat
  yield_pc : Nat
  psr : Nat
  state : State
  fault_response : FaultResponse
  tasks : List Task
  tasksCap : Nat
  grant_ptrs : List Nat
  stackMem : Nat → Nat
  syscall_count : Nat
  last_syscall : Option Syscall
  dropped_callback_count : Nat
  restart_count : Nat
  min_stack_pointer : Nat
  flashStart : Nat
  init_function_offset : Nat
  protected_size : Nat

/-- Accessor `mem_start`, from src/kernel/src/process.rs. -/
def Process.mem_start (p : Process) : Nat := p.memStart

/-- Accessor `mem_end`, from src/kernel/src/process.rs:
`memory.as_ptr().offset(memory.len())`. -/
def Process.mem_end (p : Process) : Nat := p.memStart + p.memLen

/-- Accessor `current_state`, from src/kernel/src/process.rs. -/
def Process.current_state (p : Process) : State := p.state

/-- The `schedule` operation, from src/kernel/src/process.rs lines 379-401:
refuse outright in the Fault state; otherwise increment the global work
counter, attempt the enqueue, and count a dropped callback on failure. -/
def Process.schedule (p : Process) (callback : FunctionCall) : Process × Bool :=
  if p.current_state = State.Fault then
    (p, false)
  else
    let p1 : Process := { p with work := p.work + 1 }
    match rbEnqueue p1.tasksCap p1.tasks (Task.FunctionCall callback) with
    | (ts, true) => ({ p1 with tasks := ts }, true)
    | (_, false) =>
        ({ p1 with dropped_callback_count := p1.dropped_callback_count + 1 }, false)

/-- The `schedule_ipc` operation, from src/kernel/src/process.rs lines
403-416: no state check; increment the work counter, attempt the enqueue,
count a dropped callback on failure. -/
def Process.schedule_ipc (p : Process) (from_ : Nat) (cb_type : IPCType) : Process :=
  let p1 : Process := { p with work := p.work + 1 }
  match rbEnqueue p1.tasksCap p1.tasks (Task.IPC from_ cb_type) with
  | (ts, true) => { p1 with tasks := ts }
  | (_, false) =>
      { p1 with dropped_callback_count := p1.dropped_callback_count + 1 }

/-- The `dequeue_task` operation, from src/kernel/src/process.rs lines
503-510: pop the queue head and decrement the work counter if a task came
out. -/
def Process.dequeue_task (p : Process) : Process × Option Task :=
  match rbDequeue p.tasks with
  | (_, none) => (p, none)
  | (ts, some cb) => ({ p with tasks := ts, work := p.work - 1 }, some cb)

/-- The `yield_state` transition, from src/kernel/src/process.rs lines
425-431: only a Running process moves to Yielded, decrementing the work
counter. -/
def Process.yield_state (p : Process) : Process :=
  if p.state = State.Running then
    { p with state := State.Yielded, work := p.work - 1 }
  else
    p

/-- The `grant_ptrs_reset` helper, from src/kernel/src/process.rs lines
1041-1048: null every entry of the grant-pointer table. -/
def Process.grant_ptrs_reset (p : Process) : Process :=
  { p with grant_ptrs := List.replicate p.grant_ptrs.length 0 }

/-- The `brk` operation, from src/kernel/src/process.rs lines 676-686.
The requested break is an Int so that out-of-range pointer arithmetic from
`sbrk` stays faithful. -/
def Process.brk (p : Process) (new_break : Int) : Except Error Nat × Process :=
  if new_break < (p.mem_start : Int) ∨ new_break ≥ (p.mem_end : Int) then
    (Except.error Error.AddressOutOfBounds, p)
  else if new_break > (p.kernel_memory_break : Int) then
    (Except.error Error.OutOfMemory, p)
  else
    (Except.ok p.app_break, { p with app_break := new_break.toNat })

/-- The `sbrk` operation, from src/kernel/src/process.rs lines 671-674:
offset the current break and delegate to `brk`. -/
def Process.sbrk (p : Process) (increment : Int) : Except Error Nat × Process :=
  p.brk ((p.app_break : Int) + increment)

/-- The `in_exposed_bounds` check, from src/kernel/src/process.rs lines
688-692. -/
def Process.in_exposed_bounds (p : Process) (buf_start_addr size : Nat) : Bool :=
  decide (p.mem_start ≤ buf_start_addr) && decide (buf_start_addr + size ≤ p.mem_end)

/-- The grant allocator `alloc`, from src/kernel/src/process.rs lines
694-702: carve `size` bytes downward from `kernel_memory_break`, failing if
that would cross `app_break`.  On success the returned slice is the pair
(start address, length). -/
def Process.alloc (p : Process) (size : Nat) : Option (Nat × Nat) × Process :=
  let new_break : Int := (p.kernel_memory_break : Int) - (size : Int)
  if new_break < (p.app_break : Int) then
    (none, p)
  else
    (some (new_break.toNat, size), { p with kernel_memory_break := new_break.toNat })

/-- The `pop_syscall_stack` operation, from src/kernel/src/process.rs lines
733-746: capture frame slots 6 and 7 into `yield_pc` and `psr`, discard the
8-word exception frame, and update the minimum-stack debug value. -/
def Process.pop_syscall_stack (p : Process) : Process :=
  let sp := p.current_stack_pointer
  let new_sp := sp + 4 * 8
  { p with
    yield_pc := p.stackMem (sp + 4 * 6)
    psr := p.stackMem (sp + 4 * 7)
    current_stack_pointer := new_sp
    min_stack_pointer :=
      if new_sp < p.min_stack_pointer then new_sp else p.min_stack_pointer }

/-- The `push_function_call` operation, from src/kernel/src/process.rs
lines 749-774 (the Cortex-M shim in src/arch/cortex-m/src/syscall.rs lines
122-145 writes the identical frame): increment the work counter, move to
Running, reserve 8 words below the stack pointer and fill the exception
frame. -/
def Process.push_function_call (p : Process) (callback : FunctionCall) : Process :=
  let stack_bottom := p.current_stack_pointer - 4 * 8
  let m0 := writeWord p.stackMem (stack_bottom + 4 * 7) p.psr
  let m1 := writeWord m0 (stack_bottom + 4 * 6) (callback.pc ||| 1)
  let m2 := writeWord m1 (stack_bottom + 4 * 5) (p.yield_pc ||| 1)
  let m3 := writeWord m2 stack_bottom callback.r0
  let m4 := writeWord m3 (stack_bottom + 4 * 1) callback.r1
  let m5 := writeWord m4 (stack_bottom + 4 * 2) callback.r2
  let m6 := writeWord m5 (stack_bottom + 4 * 3) callback.r3
  { p with
    work := p.work + 1
    state := State.Running
    stackMem := m6
    current_stack_pointer := stack_bottom
    min_stack_pointer :=
      if stack_bottom < p.min_stack_pointer then stack_bottom
      else p.min_stack_pointer }

/-- The `fault_state` transition, from src/kernel/src/process.rs lines
433-501.  The Panic arm halts the kernel and is modelled as `none`; the
Restart arm drains the queue (rebalancing the work counter), resets the
debug record, pointers and grant table, and enqueues the init task. -/
def Process.fault_state (p : Process) : Option Process :=
  match p.fault_response with
  | FaultResponse.Panic => none
  | FaultResponse.Restart =>
    let p0 : Process := { p with state := State.Fault }
    let tasks_len := p0.tasks.length
    let p1 : Process := { p0 with work := p0.work - (tasks_len : Int) }
    let p2 : Process := { p1 with tasks := [] }
    let p3 : Process :=
      { p2 with
        restart_count := p2.restart_count + 1
        syscall_count := 0
        last_syscall := none
        dropped_callback_count := 0 }
    let init_fn := p3.flashStart + p3.init_function_offset
    let p4 : Process :=
      { p3 with yield_pc := init_fn, psr := 0x01000000, state := State.Yielded }
    let p5 := p4.grant_ptrs_reset
    let p6 : Process :=
      { p5 with
        kernel_memory_break := p5.original_kernel_memory_break
        app_break := p5.original_app_break
        current_stack_pointer := p5.original_stack_pointer }
    let flash_app_start := p6.flashStart + p6.protected_size
    let ts := (rbEnqueue p6.tasksCap p6.tasks
      (Task.FunctionCall
        { pc := init_fn
          r0 := flash_app_start
          r1 := p6.memStart
          r2 := p6.memLen
          r3 := p6.app_break })).1
    let p7 : Process := { p6 with tasks := ts }
    some { p7 with work := p7.work + 1 }

/-- The `get_syscall_data` operation of the architecture shim, from
src/arch/cortex-m/src/syscall.rs lines 94-103: read the four argument
words from the exception frame. -/
def get_syscall_data (m : Nat → Nat) (sp : Nat) : Nat × Nat × Nat × Nat :=
  (m sp, m (sp + 4), m (sp + 8), m (sp + 12))

/-- Reinterpretation of a signed 32-bit value as the unsigned word the
hardware stores (the shim writes an `isize` through a `*mut isize` into
the same slot `get_syscall_data` later reads as `usize`). -/
def toUnsignedWord (x : Int) : Nat := (x % (2 ^ 32)).toNat

/-- Reinterpretation of a stored 32-bit word as the signed value it
encodes in two-complement form. -/
def toSignedWord (w : Nat) : Int :=
  if w < 2 ^ 31 then (w : Int) else (w : Int) - 2 ^ 32

/-- The `set_syscall_return_value` operation of the architecture shim, from
src/arch/cortex-m/src/syscall.rs lines 105-112: overwrite the first frame
word (the r0 slot) with the signed return code. -/
def set_syscall_return_value (m : Nat → Nat) (sp : Nat) (return_value : Int) :
    Nat → Nat :=
  writeWord m sp (toUnsignedWord return_value)

/-- The YIELD arm of `do_process`, from src/kernel/src/sched.rs lines
266-272: `yield_state` followed by `pop_syscall_stack`. -/
def yield_syscall (p : Process) : Process :=
  p.yield_state.pop_syscall_stack

/-- Argument the `allow` of a driver receives: either a slice into the
RAM of the app or the null (None) buffer. -/
inductive AllowArg
  | slice (start len : Nat)
  | noSlice
deriving DecidableEq

/-- The ALLOW arm of `do_process`, from src/kernel/src/sched.rs lines
296-318.  A driver is a function from the `which` argument and the allow
argument to a return code; `none` means no driver matched the driver
number.  The second component records the argument that `allow` of the driver
was invoked with (`none` when it was never invoked). -/
def allow_syscall (p : Process) (driver : Option (Nat → AllowArg → ReturnCode))
    (r1 r2 r3 : Nat) : ReturnCode × Option (Nat × AllowArg) :=
  match driver with
  | none => (ReturnCode.ENODEVICE, none)
  | some d =>
    if r2 ≠ 0 then
      if p.in_exposed_bounds r2 r3 then
        (d r1 (AllowArg.slice r2 r3), some (r1, AllowArg.slice r2 r3))
      else
        (ReturnCode.EINVAL, none)
    else
      (d r1 AllowArg.noSlice, some (r1, AllowArg.noSlice))

/-- One kernel operation of the work-counter model: the operations that the
balance property P3 of the spec ranges over. -/
inductive KOp
  | schedule (c : FunctionCall)
  | scheduleIpc (from_ : Nat) (kind : IPCType)
  | dequeueTask
  | yieldState
  | pushFunctionCall (c : FunctionCall)

/-- Execute one kernel operation on the process state. -/
def stepOp (p : Process) : KOp → Process
  | KOp.schedule c => (p.schedule c).1
  | KOp.scheduleIpc f k => p.schedule_ipc f k
  | KOp.dequeueTask => p.dequeue_task.1
  | KOp.yieldState => p.yield_state
  | KOp.pushFunctionCall c => p.push_function_call c

/-- Execute a finite run of kernel operations. -/
def run (p : Process) : List KOp → Process
  | [] => p
  | op :: ops => run (stepOp p op) ops

/-- Scheduler discipline for one operation: `push_function_call` is only
ever issued by `do_process` after dequeuing a task from a non-Running
(Yielded) process; the other operations are unconstrained. -/
def stepOkB (p : Process) : KOp → Bool
  | KOp.pushFunctionCall _ => decide (p.state ≠ State.Running)
  | _ => true

/-- A run respects the scheduler discipline at every step. -/
def goodRun (p : Process) : List KOp → Bool
  | [] => true
  | op :: ops => stepOkB p op && goodRun (stepOp p op) ops

/-- Contribution of the process state to the work counter: a Running
process counts as one outstanding unit of work. -/
def runBit : State → Int
  | State.Running => 1
  | _ => 0

/-- The work-counter ledger of a process state: the work counter minus
outstanding tasks, minus the Running contribution, minus the callbacks
dropped so far (each dropped callback left a stranded increment behind). -/
def balance (p : Process) : Int :=
  p.work - (p.tasks.length : Int) - runBit p.state - (p.dropped_callback_count : Int)

/-- Run a list of grant allocations, collecting the byte ranges `alloc`
handed out (failures hand out nothing). -/
def allocRun (p : Process) : List Nat → Process × List (Nat × Nat)
  | [] => (p, [])
  | s :: ss =>
    match p.alloc s with
    | (none, p1) => allocRun p1 ss
    | (some r, p1) =>
      let rest := allocRun p1 ss
      (rest.1, r :: rest.2)

/-- Disjointness of two byte ranges given as (start, length). -/
def rangesDisjoint (a b : Nat × Nat) : Prop :=
  a.1 + a.2 ≤ b.1 ∨ b.1 + b.2 ≤ a.1

/-- A sample queued function call used by the concrete evaluations. -/
def c0 : FunctionCall :=
  { r0 := 1, r1 := 2, r2 := 3, r3 := 0xBEEF, pc := 0xF00 }

/-- A concrete process in the shape `Process::create` leaves behind: a
4 KiB flash image at 0x8000 with a 0x80-byte protected prefix, an 8 KiB
RAM window at 0x1000, the task queue capacity 10 of `create`, and the
Restart fault policy.  The stack memory is the identity word store. -/
def baseProcess : Process :=
  { work := 0
    memStart := 0x1000
    memLen := 0x2000
    kernel_memory_break := 0x2800
    original_kernel_memory_break := 0x2800
    app_break := 0x1080
    original_app_break := 0x1080
    current_stack_pointer := 0x1080
    original_stack_pointer := 0x1080
    yield_pc := 0x8081
    psr := 0x01000000
    state := State.Yielded
    fault_response := FaultResponse.Restart
    tasks := []
    tasksCap := 10
    grant_ptrs := [0x2900, 0]
    stackMem := fun a => a
    syscall_count := 0
    last_syscall := none
    dropped_callback_count := 0
    restart_count := 0
    min_stack_pointer := 0x1080
    flashStart := 0x8000
    init_function_offset := 0x81
    protected_size := 0x80 }

/-- A concrete process whose task queue is full (10 queued tasks against
capacity 10) and whose state is Yielded. -/
def fullQueueProcess : Process :=
  { baseProcess with
    tasks := List.replicate 10 (Task.FunctionCall c0)
    work := 10 }

/-- A concrete process in the Fault state with a non-full queue. -/
def faultProcess : Process :=
  { baseProcess with state := State.Fault }

/-- A concrete process matching the sbrk-overflow scenario of the spec:
`app_break = 0x2000`, `kernel_memory_break = 0x2100`, RAM window
0x1000..0x3000. -/
def brkDemoProcess : Process :=
  { baseProcess with app_break := 0x2000, kernel_memory_break := 0x2100 }

/-- A concrete Running process for the yield round-trip. -/
def runningProcess : Process :=
  { baseProcess with state := State.Running, work := 1 }

/-- A concrete run of kernel operations exercising every work-counter
operation: a successful schedule, a dequeue, a push, a yield, another
schedule and a schedule_ipc. -/
def opsW : List KOp :=
  [KOp.schedule c0, KOp.dequeueTask, KOp.pushFunctionCall c0, KOp.yieldState,
   KOp.schedule c0, KOp.scheduleIpc 1 IPCType.Service]

/-- An all-zero word store for the round-trip evaluation. -/
def mem0 : Nat → Nat := fun _ => 0

theorem balance_stepOp (p : Process) (op : KOp) (h : stepOkB p op = true) :
    balance (stepOp p op) = balance p := by
  cases op with
  | schedule c =>
    simp only [stepOp, Process.schedule, Process.current_state, rbEnqueue, balance]
    split
    · rfl
    · split
      · rename_i heq
        split at heq
        · simp only [Prod.mk.injEq] at heq
          simp only [← heq.1, List.length_append, List.length_singleton]
          push_cast
          ring
        · simp at heq
      · rename_i heq
        split at heq
        · simp at heq
        · simp only [runBit]
          push_cast
          ring
  | scheduleIpc f k =>
    simp only [stepOp, Process.schedule_ipc, rbEnqueue, balance]
    split
    · rename_i heq
      split at heq
      · simp only [Prod.mk.injEq] at heq
        simp only [← heq.1, List.length_append, List.length_singleton]
        push_cast
        ring
      · simp at heq
    · rename_i heq
      split at heq
      · simp at heq
      · push_cast
        ring
  | dequeueTask =>
    simp only [stepOp, Process.dequeue_task, rbDequeue, balance]
    cases htl : p.tasks with
    | nil => simp [htl]
    | cons t ts =>
      simp only [htl, List.length_cons]
      push_cast
      ring
  | yieldState =>
    simp only [stepOp, Process.yield_state, balance]
    split
    · rename_i hs
      simp only [hs, runBit]
      ring
    · rfl
  | pushFunctionCall c =>
    simp only [stepOkB, decide_eq_true_eq] at h
    simp only [stepOp, Process.push_function_call, balance]
    cases hs : p.state with
    | Running => exact absurd hs h
    | Yielded => simp only [hs, runBit]; ring
    | Fault => simp only [hs, runBit]; ring

theorem balance_run (p : Process) (ops : List KOp) (h : goodRun p ops = true) :
    balance (run p ops) = balance p := by
  induction ops generalizing p with
  | nil => rfl
  | cons op ops ih =>
    simp only [goodRun, Bool.and_eq_true] at h
    simp only [run]
    rw [ih (stepOp p op) h.2, balance_stepOp p op h.1]

/-- C1 (amended): over any finite run of the listed kernel operations that
respects the scheduler discipline (push_function_call only from a
non-Running state), the work counter equals outstanding tasks plus the
Running contribution plus the dropped-callback count, provided it did at
the start.  A schedule or schedule_ipc whose enqueue fails still
increments the work counter; the stranded increment is counted exactly by
the dropped-callback counter. -/
theorem work_counter_balance_amended (p : Process) (ops : List KOp)
    (hrun : goodRun p ops = true)
    (hinv : p.work = (p.tasks.length : Int) + runBit p.state +
      (p.dropped_callback_count : Int)) :
    (run p ops).work = ((run p ops).tasks.length : Int) +
      runBit (run p ops).state + ((run p ops).dropped_callback_count : Int) := by
  have hb := balance_run p ops hrun
  unfold balance at hb
  omega

/-- C1 (counterexample): a schedule call on a full queue fails the enqueue
yet increments the work counter, refuting the claim that a failed enqueue
leaves the counter unchanged. -/
theorem work_counter_claim_counterexample :
    fullQueueProcess.tasks.length = fullQueueProcess.tasksCap ∧
    (fullQueueProcess.schedule c0).2 = false ∧
    ¬ (fullQueueProcess.schedule c0).1.work = fullQueueProcess.work := by
  decide

/-- C1 (witness): the amended balance theorem applied to a concrete run
exercising all five kernel operations from a consistent initial state. -/
theorem work_counter_balance_amended_witness :
    (run baseProcess opsW).work = ((run baseProcess opsW).tasks.length : Int) +
      runBit (run baseProcess opsW).state +
      ((run baseProcess opsW).dropped_callback_count : Int) :=
  work_counter_balance_amended baseProcess opsW (by decide) (by decide)

/-- C2 (amended): schedule returns false and leaves the queue, the work
counter and the dropped-callback counter untouched when the process is in
the Fault state; otherwise it increments the work counter and then either
enqueues the task and returns true (queue not full) or increments the
dropped-callback counter and returns false (queue full). -/
theorem schedule_spec (p : Process) (c : FunctionCall) :
    (p.state = State.Fault → p.schedule c = (p, false)) ∧
    (p.state ≠ State.Fault → p.tasks.length < p.tasksCap →
      p.schedule c =
        ({ p with work := p.work + 1,
                  tasks := p.tasks ++ [Task.FunctionCall c] }, true)) ∧
    (p.state ≠ State.Fault → ¬ p.tasks.length < p.tasksCap →
      p.schedule c =
        ({ p with work := p.work + 1,
                  dropped_callback_count := p.dropped_callback_count + 1 },
         false)) := by
  refine ⟨?_, ?_, ?_⟩
  · intro h
    simp [Process.schedule, Process.current_state, h]
  · intro h hl
    simp [Process.schedule, Process.current_state, h, rbEnqueue, hl]
  · intro h hl
    simp [Process.schedule, Process.current_state, h, rbEnqueue, hl]

/-- C2 (counterexample): for a Fault-state process with a non-full queue,
schedule returns false but does not increment the dropped-callback
counter, refuting the claim that the return-false and dropped-increment
happen exactly when the queue is full or the process is in Fault. -/
theorem schedule_fault_counterexample :
    ¬ (((faultProcess.schedule c0).2 = false ∧
        (faultProcess.schedule c0).1.dropped_callback_count =
          faultProcess.dropped_callback_count + 1) ↔
       (faultProcess.tasksCap ≤ faultProcess.tasks.length ∨
        faultProcess.state = State.Fault)) := by
  decide

/-- C3: brk fails with AddressOutOfBounds outside the RAM window, with
OutOfMemory inside the window but above kernel_memory_break, and otherwise
sets app_break to the new break and returns the old one; on either error
the process (in particular app_break) is unchanged, and sbrk is brk of the
offset break. -/
theorem brk_sbrk_spec (p : Process) (nb delta : Int) :
    ((nb < (p.mem_start : Int) ∨ nb ≥ (p.mem_end : Int)) →
      p.brk nb = (Except.error Error.AddressOutOfBounds, p)) ∧
    ((p.mem_start : Int) ≤ nb → nb < (p.mem_end : Int) →
      nb > (p.kernel_memory_break : Int) →
      p.brk nb = (Except.error Error.OutOfMemory, p)) ∧
    ((p.mem_start : Int) ≤ nb → nb < (p.mem_end : Int) →
      nb ≤ (p.kernel_memory_break : Int) →
      p.brk nb = (Except.ok p.app_break, { p with app_break := nb.toNat })) ∧
    p.sbrk delta = p.brk ((p.app_break : Int) + delta) := by
  refine ⟨?_, ?_, ?_, rfl⟩
  · intro h
    rw [Process.brk, if_pos h]
  · intro h1 h2 h3
    rw [Process.brk, if_neg (by omega), if_pos h3]
  · intro h1 h2 h3
    rw [Process.brk, if_neg (by omega), if_neg (by omega)]

/-- C3 (witness): the sbrk-overflow scenario of the spec — `app_break = 0x2000`,
`kernel_memory_break = 0x2100`, `sbrk 0x200` fails with OutOfMemory and
leaves the process unchanged. -/
theorem brk_sbrk_spec_witness :
    brkDemoProcess.sbrk 0x200 =
      (Except.error Error.OutOfMemory, brkDemoProcess) := by
  have h := brk_sbrk_spec brkDemoProcess ((brkDemoProcess.app_break : Int) + 0x200) 0x200
  rw [h.2.2.2]
  exact h.2.1 (by decide) (by decide) (by decide)

/-- C4: fault_state under the Restart policy resets app_break,
kernel_memory_break and the stack pointer to their create-time originals,
nulls every grant-pointer-table entry, leaves exactly one queued task (the
init FunctionCall, whose pc is the init function address of the header), moves
the state to Yielded, resets the saved status word to 0x01000000, and
bumps restart_count by one. -/
theorem fault_state_restart_spec (p : Process)
    (hpol : p.fault_response = FaultResponse.Restart)
    (hcap : 0 < p.tasksCap) :
    ∃ q, p.fault_state = some q ∧
      q.app_break = p.original_app_break ∧
      q.kernel_memory_break = p.original_kernel_memory_break ∧
      q.current_stack_pointer = p.original_stack_pointer ∧
      (∀ g ∈ q.grant_ptrs, g = 0) ∧
      q.grant_ptrs.length = p.grant_ptrs.length ∧
      q.tasks = [Task.FunctionCall
        { r0 := p.flashStart + p.protected_size
          r1 := p.memStart
          r2 := p.memLen
          r3 := p.original_app_break
          pc := p.flashStart + p.init_function_offset }] ∧
      q.state = State.Yielded ∧
      q.psr = 0x01000000 ∧
      q.restart_count = p.restart_count + 1 := by
  unfold Process.fault_state
  split
  · rename_i hx
    rw [hpol] at hx
    cases hx
  · refine ⟨_, rfl, rfl, rfl, rfl, ?_, ?_, ?_, rfl, rfl, rfl⟩
    · intro g hg
      simp only [Process.grant_ptrs_reset] at hg
      exact List.eq_of_mem_replicate hg
    · simp [Process.grant_ptrs_reset]
    · simp [Process.grant_ptrs_reset, rbEnqueue, hcap]

/-- C4 (witness): the restart theorem applied to the concrete base
process, whose fault policy is Restart and whose queue capacity is 10. -/
theorem fault_state_restart_spec_witness :
    ∃ q, baseProcess.fault_state = some q ∧
      q.app_break = baseProcess.original_app_break ∧
      q.kernel_memory_break = baseProcess.original_kernel_memory_break ∧
      q.current_stack_pointer = baseProcess.original_stack_pointer ∧
      (∀ g ∈ q.grant_ptrs, g = 0) ∧
      q.grant_ptrs.length = baseProcess.grant_ptrs.length ∧
      q.tasks = [Task.FunctionCall
        { r0 := baseProcess.flashStart + baseProcess.protected_size
          r1 := baseProcess.memStart
          r2 := baseProcess.memLen
          r3 := baseProcess.original_app_break
          pc := baseProcess.flashStart + baseProcess.init_function_offset }] ∧
      q.state = State.Yielded ∧
      q.psr = 0x01000000 ∧
      q.restart_count = baseProcess.restart_count + 1 :=
  fault_state_restart_spec baseProcess rfl (by decide)

/-- C5: a Running process performing the YIELD syscall ends Yielded, its
saved PC and status word are captured from frame slots 6 and 7 into
process-local storage, the stack pointer advances by 8 words, and the work
counter drops by exactly one. -/
theorem yield_syscall_spec (p : Process) (h : p.state = State.Running) :
    (yield_syscall p).state = State.Yielded ∧
    (yield_syscall p).yield_pc = p.stackMem (p.current_stack_pointer + 4 * 6) ∧
    (yield_syscall p).psr = p.stackMem (p.current_stack_pointer + 4 * 7) ∧
    (yield_syscall p).current_stack_pointer = p.current_stack_pointer + 4 * 8 ∧
    (yield_syscall p).work = p.work - 1 := by
  unfold yield_syscall Process.pop_syscall_stack Process.yield_state
  rw [if_pos h]
  exact ⟨rfl, rfl, rfl, rfl, rfl⟩

/-- C5 (witness): the yield round-trip applied to a concrete Running
process. -/
theorem yield_syscall_spec_witness :
    (yield_syscall runningProcess).state = State.Yielded ∧
    (yield_syscall runningProcess).yield_pc =
      runningProcess.stackMem (runningProcess.current_stack_pointer + 4 * 6) ∧
    (yield_syscall runningProcess).psr =
      runningProcess.stackMem (runningProcess.current_stack_pointer + 4 * 7) ∧
    (yield_syscall runningProcess).current_stack_pointer =
      runningProcess.current_stack_pointer + 4 * 8 ∧
    (yield_syscall runningProcess).work = runningProcess.work - 1 :=
  yield_syscall_spec runningProcess rfl

/-- C6: push_function_call reserves 8 words below the stack pointer and
fills the frame: slots 0..3 from the r0..r3 of the call, slot 5 (the link
register) with the previously saved return PC with its thumb bit set,
slot 6 with the pc of the call with bit 0 set, and slot 7 with the previously
saved status word; the stack pointer drops by 8 words and the state
becomes Running.  The hypothesis rules out stack underflow, which on the
hardware would be undefined behaviour. -/
theorem push_function_call_spec (p : Process) (c : FunctionCall)
    (h : 4 * 8 ≤ p.current_stack_pointer) :
    (p.push_function_call c).current_stack_pointer =
      p.current_stack_pointer - 4 * 8 ∧
    (p.push_function_call c).state = State.Running ∧
    (p.push_function_call c).stackMem (p.current_stack_pointer - 4 * 8) = c.r0 ∧
    (p.push_function_call c).stackMem (p.current_stack_pointer - 4 * 8 + 4 * 1) = c.r1 ∧
    (p.push_function_call c).stackMem (p.current_stack_pointer - 4 * 8 + 4 * 2) = c.r2 ∧
    (p.push_function_call c).stackMem (p.current_stack_pointer - 4 * 8 + 4 * 3) = c.r3 ∧
    (p.push_function_call c).stackMem (p.current_stack_pointer - 4 * 8 + 4 * 5) =
      (p.yield_pc ||| 1) ∧
    (p.push_function_call c).stackMem (p.current_stack_pointer - 4 * 8 + 4 * 6) =
      (c.pc ||| 1) ∧
    (p.push_function_call c).stackMem (p.current_stack_pointer - 4 * 8 + 4 * 7) =
      p.psr := by
  unfold Process.push_function_call writeWord
  refine ⟨rfl, rfl, ?_, ?_, ?_, ?_, ?_, ?_, ?_⟩ <;>
    simp only [] <;>
    split_ifs <;>
    first | rfl | omega

/-- C6 (witness): the push theorem applied to a concrete process whose
stack pointer leaves room for the 8-word frame. -/
theorem push_function_call_spec_witness :
    (baseProcess.push_function_call c0).current_stack_pointer =
      baseProcess.current_stack_pointer - 4 * 8 ∧
    (baseProcess.push_function_call c0).state = State.Running ∧
    (baseProcess.push_function_call c0).stackMem
      (baseProcess.current_stack_pointer - 4 * 8) = c0.r0 ∧
    (baseProcess.push_function_call c0).stackMem
      (baseProcess.current_stack_pointer - 4 * 8 + 4 * 1) = c0.r1 ∧
    (baseProcess.push_function_call c0).stackMem
      (baseProcess.current_stack_pointer - 4 * 8 + 4 * 2) = c0.r2 ∧
    (baseProcess.push_function_call c0).stackMem
      (baseProcess.current_stack_pointer - 4 * 8 + 4 * 3) = c0.r3 ∧
    (baseProcess.push_function_call c0).stackMem
      (baseProcess.current_stack_pointer - 4 * 8 + 4 * 5) =
      (baseProcess.yield_pc ||| 1) ∧
    (baseProcess.push_function_call c0).stackMem
      (baseProcess.current_stack_pointer - 4 * 8 + 4 * 6) = (c0.pc ||| 1) ∧
    (baseProcess.push_function_call c0).stackMem
      (baseProcess.current_stack_pointer - 4 * 8 + 4 * 7) = baseProcess.psr :=
  push_function_call_spec baseProcess c0 (by decide)

/-- C7: ALLOW with no matching driver returns ENODEVICE; with a non-null
address out of the RAM bounds of the process it returns EINVAL without invoking
the driver; with an in-bounds non-null address the allow of the driver receives
the slice; with a null address it receives None.  The final conjunct pins
the bounds check to the RAM window. -/
theorem allow_syscall_spec (p : Process) (d : Nat → AllowArg → ReturnCode)
    (r1 r2 r3 : Nat) :
    allow_syscall p none r1 r2 r3 = (ReturnCode.ENODEVICE, none) ∧
    (r2 ≠ 0 → p.in_exposed_bounds r2 r3 = false →
      allow_syscall p (some d) r1 r2 r3 = (ReturnCode.EINVAL, none)) ∧
    (r2 ≠ 0 → p.in_exposed_bounds r2 r3 = true →
      allow_syscall p (some d) r1 r2 r3 =
        (d r1 (AllowArg.slice r2 r3), some (r1, AllowArg.slice r2 r3))) ∧
    (r2 = 0 →
      allow_syscall p (some d) r1 r2 r3 =
        (d r1 AllowArg.noSlice, some (r1, AllowArg.noSlice))) ∧
    (p.in_exposed_bounds r2 r3 = true ↔
      (p.mem_start ≤ r2 ∧ r2 + r3 ≤ p.mem_end)) := by
  refine ⟨rfl, ?_, ?_, ?_, ?_⟩
  · intro h hb
    simp [allow_syscall, h, hb]
  · intro h hb
    simp [allow_syscall, h, hb]
  · intro h
    simp [allow_syscall, h]
  · simp [Process.in_exposed_bounds]

theorem alloc_eq_cases (p : Process) (size : Nat) :
    ((p.kernel_memory_break : Int) - (size : Int) < (p.app_break : Int) →
      p.alloc size = (none, p)) ∧
    ((p.app_break : Int) ≤ (p.kernel_memory_break : Int) - (size : Int) →
      p.alloc size =
        (some (((p.kernel_memory_break : Int) - (size : Int)).toNat, size),
         { p with kernel_memory_break :=
            ((p.kernel_memory_break : Int) - (size : Int)).toNat })) := by
  constructor
  · intro h
    unfold Process.alloc
    rw [if_pos h]
  · intro h
    unfold Process.alloc
    rw [if_neg (not_lt.mpr h)]

theorem allocRun_kmb_ranges (ss : List Nat) (p : Process) :
    (allocRun p ss).1.kernel_memory_break ≤ p.kernel_memory_break ∧
    ∀ r ∈ (allocRun p ss).2,
      (allocRun p ss).1.kernel_memory_break ≤ r.1 ∧
      r.1 + r.2 ≤ p.kernel_memory_break := by
  induction ss generalizing p with
  | nil =>
    exact ⟨Nat.le_refl _, by intro r hr; cases hr⟩
  | cons s ss ih =>
    by_cases hlt : (p.kernel_memory_break : Int) - (s : Int) < (p.app_break : Int)
    · have ha : p.alloc s = (none, p) := by
        unfold Process.alloc
        rw [if_pos hlt]
      simp only [allocRun, ha]
      exact ih p
    · rw [not_lt] at hlt
      have ha : p.alloc s =
          (some (((p.kernel_memory_break : Int) - (s : Int)).toNat, s),
           { p with kernel_memory_break :=
              ((p.kernel_memory_break : Int) - (s : Int)).toNat }) := by
        unfold Process.alloc
        rw [if_neg (not_lt.mpr hlt)]
      simp only [allocRun, ha]
      have hkmb : ((p.kernel_memory_break : Int) - (s : Int)).toNat =
          p.kernel_memory_break - s := by omega
      have := ih { p with
        kernel_memory_break := ((p.kernel_memory_break : Int) - (s : Int)).toNat }
      refine ⟨le_trans this.1 (by simp only [hkmb]; omega), ?_⟩
      intro r hr
      simp only [List.mem_cons] at hr
      rcases hr with hr | hr
      · subst hr
        refine ⟨le_trans this.1 (le_of_eq ?_), by simp only [hkmb]; omega⟩
        rfl
      · have h2 := this.2 r hr
        refine ⟨h2.1, le_trans h2.2 ?_⟩
        simp only [hkmb]
        omega

theorem allocRun_pairwise_disjoint (ss : List Nat) (p : Process) :
    List.Pairwise rangesDisjoint (allocRun p ss).2 := by
  induction ss generalizing p with
  | nil => exact List.Pairwise.nil
  | cons s ss ih =>
    by_cases hlt : (p.kernel_memory_break : Int) - (s : Int) < (p.app_break : Int)
    · have ha : p.alloc s = (none, p) := by
        unfold Process.alloc
        rw [if_pos hlt]
      simp only [allocRun, ha]
      exact ih p
    · rw [not_lt] at hlt
      have ha : p.alloc s =
          (some (((p.kernel_memory_break : Int) - (s : Int)).toNat, s),
           { p with kernel_memory_break :=
              ((p.kernel_memory_break : Int) - (s : Int)).toNat }) := by
        unfold Process.alloc
        rw [if_neg (not_lt.mpr hlt)]
      simp only [allocRun, ha]
      refine List.Pairwise.cons ?_ (ih _)
      intro r hr
      have hb := (allocRun_kmb_ranges ss { p with
        kernel_memory_break := ((p.kernel_memory_break : Int) - (s : Int)).toNat }).2 r hr
      right
      exact le_trans hb.2 (le_of_eq rfl)

/-- C8: of the kernel operations, only alloc moves kernel_memory_break
(schedule, schedule_ipc, dequeue_task, yield_state, brk, sbrk,
push_function_call and pop_syscall_stack all leave it fixed); alloc only
ever lowers it — by exactly the requested size on success, returning the
newly exposed range — fails exactly when the lowered break would fall
below app_break, leaving the process unchanged, and the ranges handed out
over any run of allocations are pairwise disjoint. -/
theorem alloc_grant_monotonic_spec (p : Process) (c : FunctionCall) (f : Nat)
    (k : IPCType) (nb delta : Int) (size : Nat) (ss : List Nat) :
    (p.schedule c).1.kernel_memory_break = p.kernel_memory_break ∧
    (p.schedule_ipc f k).kernel_memory_break = p.kernel_memory_break ∧
    p.dequeue_task.1.kernel_memory_break = p.kernel_memory_break ∧
    p.yield_state.kernel_memory_break = p.kernel_memory_break ∧
    (p.brk nb).2.kernel_memory_break = p.kernel_memory_break ∧
    (p.sbrk delta).2.kernel_memory_break = p.kernel_memory_break ∧
    (p.push_function_call c).kernel_memory_break = p.kernel_memory_break ∧
    p.pop_syscall_stack.kernel_memory_break = p.kernel_memory_break ∧
    (p.alloc size).2.kernel_memory_break ≤ p.kernel_memory_break ∧
    ((p.alloc size).1 = none ↔
      (p.kernel_memory_break : Int) - (size : Int) < (p.app_break : Int)) ∧
    ((p.alloc size).1 = none → (p.alloc size).2 = p) ∧
    ((p.app_break : Int) ≤ (p.kernel_memory_break : Int) - (size : Int) →
      (p.alloc size).1 = some (p.kernel_memory_break - size, size) ∧
      (p.alloc size).2.kernel_memory_break = p.kernel_memory_break - size) ∧
    List.Pairwise rangesDisjoint (allocRun p ss).2 := by
  refine ⟨?_, ?_, ?_, ?_, ?_, ?_, rfl, rfl, ?_, ?_, ?_, ?_,
    allocRun_pairwise_disjoint ss p⟩
  · unfold Process.schedule
    split
    · rfl
    · by_cases hl : p.tasks.length < p.tasksCap
      · simp [rbEnqueue, hl]
      · simp [rbEnqueue, hl]
  · by_cases hl : p.tasks.length < p.tasksCap
    · simp [Process.schedule_ipc, rbEnqueue, hl]
    · simp [Process.schedule_ipc, rbEnqueue, hl]
  · cases htl : p.tasks with
    | nil => simp [Process.dequeue_task, rbDequeue, htl]
    | cons t ts => simp [Process.dequeue_task, rbDequeue, htl]
  · unfold Process.yield_state
    split <;> rfl
  · unfold Process.brk
    split
    · rfl
    · split <;> rfl
  · unfold Process.sbrk Process.brk
    split
    · rfl
    · split <;> rfl
  · by_cases hlt : (p.kernel_memory_break : Int) - (size : Int) < (p.app_break : Int)
    · rw [(alloc_eq_cases p size).1 hlt]
    · rw [(alloc_eq_cases p size).2 (not_lt.mp hlt)]
      show ((p.kernel_memory_break : Int) - (size : Int)).toNat ≤ p.kernel_memory_break
      omega
  · constructor
    · intro hnone
      by_contra hc
      rw [(alloc_eq_cases p size).2 (not_lt.mp hc)] at hnone
      simp at hnone
    · intro hlt
      rw [(alloc_eq_cases p size).1 hlt]
  · intro hnone
    by_cases hlt : (p.kernel_memory_break : Int) - (size : Int) < (p.app_break : Int)
    · rw [(alloc_eq_cases p size).1 hlt]
    · rw [(alloc_eq_cases p size).2 (not_lt.mp hlt)] at hnone
      simp at hnone
  · intro hle
    rw [(alloc_eq_cases p size).2 hle]
    constructor
    · simp only [Option.some.injEq, Prod.mk.injEq]
      refine ⟨?_, trivial⟩
      omega
    · show ((p.kernel_memory_break : Int) - (size : Int)).toNat =
        p.kernel_memory_break - size
      omega

/-- C9: writing a signed syscall return value into the r0 frame slot and
reading the first argument word of the frame back yields a word whose signed
reinterpretation is the original value, for every 32-bit signed value. -/
theorem set_get_roundtrip (m : Nat → Nat) (sp : Nat) (x : Int)
    (h1 : -(2 ^ 31) ≤ x) (h2 : x < 2 ^ 31) :
    toSignedWord (get_syscall_data (set_syscall_return_value m sp x) sp).1 = x := by
  have hslot : (get_syscall_data (set_syscall_return_value m sp x) sp).1 =
      toUnsignedWord x := by
    simp [get_syscall_data, set_syscall_return_value, writeWord]
  rw [hslot]
  unfold toSignedWord toUnsignedWord
  split <;> omega

/-- C9 (witness): the round trip evaluated on the all-zero store at a
concrete stack pointer with the EINVAL return value -6. -/
theorem set_get_roundtrip_witness :
    toSignedWord (get_syscall_data (set_syscall_return_value mem0 0x1080 (-6))
      0x1080).1 = -6 :=
  set_get_roundtrip mem0 0x1080 (-6) (by norm_num) (by norm_num)

/-- C10: schedule_ipc never examines the process state — even in the
Fault state it increments the global work counter and attempts the
enqueue, incrementing the work counter also when the enqueue fails on a
full queue (where it bumps the dropped-callback counter instead). -/
theorem schedule_ipc_ignores_state (p : Process) (f : Nat) (k : IPCType)
    (h : p.state = State.Fault) :
    (p.schedule_ipc f k).work = p.work + 1 ∧
    (p.tasks.length < p.tasksCap →
      p.schedule_ipc f k =
        { p with work := p.work + 1, tasks := p.tasks ++ [Task.IPC f k] }) ∧
    (¬ p.tasks.length < p.tasksCap →
      p.schedule_ipc f k =
        { p with work := p.work + 1,
                 dropped_callback_count := p.dropped_callback_count + 1 }) := by
  refine ⟨?_, ?_, ?_⟩
  · by_cases hl : p.tasks.length < p.tasksCap
    · simp [Process.schedule_ipc, rbEnqueue, hl]
    · simp [Process.schedule_ipc, rbEnqueue, hl]
  · intro hl
    simp [Process.schedule_ipc, rbEnqueue, hl]
  · intro hl
    simp [Process.schedule_ipc, rbEnqueue, hl]

/-- C10 (witness): schedule_ipc applied to a concrete Fault-state
process. -/
theorem schedule_ipc_ignores_state_witness :
    (faultProcess.schedule_ipc 1 IPCType.Service).work = faultProcess.work + 1 ∧
    (faultProcess.tasks.length < faultProcess.tasksCap →
      faultProcess.schedule_ipc 1 IPCType.Service =
        { faultProcess with
          work := faultProcess.work + 1,
          tasks := faultProcess.tasks ++ [Task.IPC 1 IPCType.Service] }) ∧
    (¬ faultProcess.tasks.length < faultProcess.tasksCap →
      faultProcess.schedule_ipc 1 IPCType.Service =
        { faultProcess with
          work := faultProcess.work + 1,
          dropped_callback_count := faultProcess.dropped_callback_count + 1 }) :=
  schedule_ipc_ignores_state faultProcess 1 IPCType.Service rfl

end Tock
